import Mathlib

/-!
Verification of the revis-cli iteration engine against its specification.

The Python sources under `src/revis/` are shallowly embedded here:
pure logic becomes Lean functions, the SQLite store becomes explicit
state passing over lists of rows, and fallible operations return
`Except`/`Option`.  Numeric metric values are modelled as rationals.
-/

namespace Revis

/-- Termination reasons, from `revis/types.py` (`TerminationReason`). -/
inductive TerminationReason
  | target_achieved
  | budget_exhausted
  | plateau
  | retry_exhaustion
  | llm_escalation
  | user_stop
  | error
deriving DecidableEq, Repr

/-- A row of the `sessions` table.  Fields follow `revis/store/sqlite.py`
(`_row_to_session`) and `revis/types.py` (`Session`).  Times are abstract
naturals, money is ignored (not needed by any claim). -/
structure SessionRow where
  id : String
  name : String
  branch : String
  baseSha : String
  baselineRunId : Option String := none
  status : String := "running"
  terminationReason : Option TerminationReason := none
  startedAt : Nat := 0
  endedAt : Option Nat := none
  budgetType : String := "time"
  budgetValue : Nat := 0
  budgetUsed : Nat := 0
  iterationCount : Nat := 0
  prUrl : Option String := none
  retryBudget : Int := 3
  pid : Nat := 0
deriving DecidableEq, Repr

/-- A row of the `runs` table (the fields the claims need). -/
structure RunRow where
  id : String
  sessionId : String
  iterationNumber : Nat
  status : String := "running"
  startedAt : Nat := 0
  exitCode : Option Int := none
deriving DecidableEq, Repr

/-- A row of the `metrics` table. -/
structure MetricRow where
  runId : String
  name : String
  value : ℚ
deriving DecidableEq, Repr

/-- A row of the `artifacts` table. -/
structure ArtifactRow where
  id : String
  runId : String
  kind : String
  path : String
deriving DecidableEq, Repr

/-- A row of the `decisions` table. -/
structure DecisionRow where
  id : String
  runId : String
  actionType : String
  rationale : String
  commitSha : Option String := none
deriving DecidableEq, Repr

/-- A row of the `params` table. -/
structure ParamRow where
  runId : String
  key : String
  value : String
deriving DecidableEq, Repr

/-- A row of the `traces` table (added by `_migrate`). -/
structure TraceRow where
  id : String
  runId : String
  eventType : String
deriving DecidableEq, Repr

/-- A row of the `suggestions` table (added by `_migrate`).
`suggestions.session_id` references sessions directly, and
`suggestions.run_id` optionally references runs. -/
structure SuggestionRow where
  id : Nat
  sessionId : String
  runId : Option String := none
  suggestionType : String
  content : String
  status : String := "pending"
  handedOffTo : Option String := none
deriving DecidableEq, Repr

/-- The whole SQLite database state: one list of rows per table that
`revis/store/sqlite.py` ever touches (schema tables plus the `traces`
and `suggestions` tables created by `_migrate`). -/
structure Store where
  sessions : List SessionRow := []
  runs : List RunRow := []
  metrics : List MetricRow := []
  artifacts : List ArtifactRow := []
  decisions : List DecisionRow := []
  params : List ParamRow := []
  traces : List TraceRow := []
  suggestions : List SuggestionRow := []
deriving DecidableEq, Repr

/-- `SELECT * FROM sessions WHERE id = ?` (`SQLiteRunStore.get_session`). -/
def get_session (st : Store) (sessionId : String) : Option SessionRow :=
  st.sessions.find? (fun s => s.id == sessionId)

/-- Pick the row with the largest `started_at` (SQL `ORDER BY started_at
DESC LIMIT 1`; ties resolved to the first-scanned row, which SQLite
leaves unspecified). -/
def latestStarted (rows : List SessionRow) : Option SessionRow :=
  rows.foldl
    (fun acc s =>
      match acc with
      | none => some s
      | some b => if s.startedAt > b.startedAt then some s else some b)
    none

/-- `SELECT * FROM sessions WHERE status = 'running' ORDER BY started_at
DESC LIMIT 1` (`SQLiteRunStore.get_running_session`). -/
def get_running_session (st : Store) : Option SessionRow :=
  latestStarted (st.sessions.filter (fun s => s.status == "running"))

/-- `SELECT 1 FROM sessions WHERE name = ? LIMIT 1`
(`SQLiteRunStore.session_name_exists`). -/
def session_name_exists (st : Store) (name : String) : Bool :=
  st.sessions.any (fun s => s.name == name)

/-- `SQLiteRunStore.create_session`.  The random 8-hex identifier, the
holder pid and the insertion time are passed in as parameters (they come
from the environment in the Python code).  Modelled from the spec: the
column defaults (`status = running`, `budget_used = 0`,
`iteration_count = 0`) live in `schema.sql`, which is not in the source
tree; the spec's data model and lifecycle (a created session is the
running session with zero used budget and zero iterations, retry budget
starts at 3) fixes them, and `create_session` itself inserts the retry
budget 3 and the pid explicitly.  The `name` column is `UNIQUE`, so
inserting a duplicate name fails. -/
def create_session (st : Store) (sessionId name branch baseSha : String)
    (budgetType : String) (budgetValue : Nat) (baselineRunId : Option String)
    (pid startedAt : Nat) : Except String Store :=
  if session_name_exists st name then
    Except.error "UNIQUE constraint failed: sessions.name"
  else
    Except.ok { st with
      sessions := st.sessions ++ [{
        id := sessionId
        name := name
        branch := branch
        baseSha := baseSha
        baselineRunId := baselineRunId
        status := "running"
        startedAt := startedAt
        budgetType := budgetType
        budgetValue := budgetValue
        budgetUsed := 0
        iterationCount := 0
        retryBudget := 3
        pid := pid }] }

/-- The status string `SQLiteRunStore.end_session` stores for a given
termination reason (the `if reason == ... / elif ... / else` chain). -/
def statusForReason (reason : TerminationReason) : String :=
  if reason = TerminationReason.target_achieved then "completed"
  else if reason = TerminationReason.error then "failed"
  else "stopped"

/-- `SQLiteRunStore.end_session`: update status, termination reason,
PR URL and end time of the addressed session row. -/
def end_session (st : Store) (sessionId : String) (reason : TerminationReason)
    (prUrl : Option String) (now : Nat) : Store :=
  { st with
    sessions := st.sessions.map (fun s =>
      if s.id == sessionId then
        { s with
          status := statusForReason reason
          terminationReason := some reason
          prUrl := prUrl
          endedAt := some now }
      else s) }

/-- Insertion sort of run rows by `started_at` descending
(`ORDER BY r.started_at DESC`). -/
def insertRunDesc (r : RunRow) : List RunRow → List RunRow
  | [] => [r]
  | x :: xs =>
    if r.startedAt ≥ x.startedAt then r :: x :: xs
    else x :: insertRunDesc r xs

/-- Sort run rows by `started_at` descending. -/
def sortRunsDesc (rows : List RunRow) : List RunRow :=
  rows.foldr insertRunDesc []

/-- `SQLiteRunStore.query_runs` restricted to the session filter:
`SELECT r.* FROM runs r WHERE r.session_id = ? ORDER BY r.started_at
DESC LIMIT ?`. -/
def query_runs (st : Store) (sessionId : String) (limit : Nat) : List RunRow :=
  (sortRunsDesc (st.runs.filter (fun r => r.sessionId == sessionId))).take limit

/-- `SQLiteRunStore.delete_session`.  Returns the post-call database
state together with the Python return value (`Except` error = the
`ValueError` raise, which happens before any `DELETE` statement runs, so
the state is returned unchanged in that case).  The per-run loop deletes
from `traces`, `decisions`, `artifacts`, `metrics` and `params` for each
of the first 1000 runs (the `query_runs(..., limit=1000)` cap), then all
runs of the session, then the session row.  No statement touches the
`suggestions` table. -/
def delete_session (st : Store) (sessionId : String) (force : Bool) :
    Store × Except String Bool :=
  match get_session st sessionId with
  | none => (st, Except.ok false)
  | some s =>
    if s.status == "running" && !force then
      (st, Except.error "Cannot delete running session (use --force)")
    else
      let runIds := (query_runs st sessionId 1000).map (fun r => r.id)
      let st' : Store := { st with
        traces := st.traces.filter (fun t => !(runIds.contains t.runId))
        decisions := st.decisions.filter (fun d => !(runIds.contains d.runId))
        artifacts := st.artifacts.filter (fun a => !(runIds.contains a.runId))
        metrics := st.metrics.filter (fun m => !(runIds.contains m.runId))
        params := st.params.filter (fun p => !(runIds.contains p.runId))
        runs := st.runs.filter (fun r => !(r.sessionId == sessionId))
        sessions := st.sessions.filter (fun x => !(x.id == sessionId)) }
      (st', Except.ok true)

/-- `revis loop` name validation (`cli.py`):
`name.replace("-", "").replace("_", "").isalnum()`. -/
def validSessionName (name : String) : Bool :=
  let core := name.toList.filter (fun c => c ≠ '-' ∧ c ≠ '_')
  !core.isEmpty && core.all Char.isAlphanum

/-- The session-creating prefix of the `revis loop` CLI command
(`cli.py`, `loop`): validate the name, refuse a duplicate name, refuse
when a running session exists, and only then call
`store.create_session`.  Returns the resulting database state and
either the new session id or the CLI error message. -/
def cliLoop (st : Store) (name : String)
    (sessionId baseSha : String) (budgetType : String) (budgetValue : Nat)
    (baselineRunId : Option String) (pid startedAt : Nat) :
    Store × Except String String :=
  if !validSessionName name then
    (st, Except.error "Session name must be alphanumeric (dashes/underscores allowed)")
  else if session_name_exists st name then
    (st, Except.error "Session already exists")
  else if (get_running_session st).isSome then
    (st, Except.error "Session is already running")
  else
    match create_session st sessionId name ("revis/" ++ name) baseSha
        budgetType budgetValue baselineRunId pid startedAt with
    | Except.error e => (st, Except.error e)
    | Except.ok st' => (st', Except.ok sessionId)

/-!  Budget accounting of the orchestrator loop (`revis/loop.py`).  -/

/-- The per-session budget bookkeeping the loop mutates: the stored
`budget_value` / `budget_used` / `iteration_count` columns plus the
termination reason once `_terminate` has run. -/
structure BudgetLedger where
  budgetValue : Nat
  budgetUsed : Nat := 0
  iterationCount : Nat := 0
  terminated : Option TerminationReason := none
deriving DecidableEq, Repr

/-- One pass of `_run_loop` for a time budget, given the elapsed seconds
at the preemption check: `update_session_budget(session.id, elapsed)`
always runs, then `elapsed >= budget.value` terminates with
budget-exhausted.  `loopValue` is the `value` of the `Budget` object
passed to `_run_loop` (the full value on a fresh start, the remaining
value on resume); the session body never touches `budget_used` for a
time budget. -/
def timeBudgetCheck (loopValue elapsed : Nat) (led : BudgetLedger) :
    BudgetLedger × Bool :=
  let led' := { led with budgetUsed := elapsed }
  if elapsed ≥ loopValue then
    ({ led' with terminated := some TerminationReason.budget_exhausted }, true)
  else (led', false)

/-- `_run_loop` for a time budget, abstracting each iteration body to
the elapsed-seconds reading of its preemption check (the list also
bounds how many passes we observe; a run still in flight simply ends
the list). -/
def runTimeBudgetLoop (loopValue : Nat) (led : BudgetLedger) :
    List Nat → BudgetLedger
  | [] => led
  | elapsed :: rest =>
    let (led', stop) := timeBudgetCheck loopValue elapsed led
    if stop then led'
    else runTimeBudgetLoop loopValue
      { led' with iterationCount := led'.iterationCount + 1 } rest

/-- `_run_loop` for a run-count budget.  Each pass: terminate when
`iteration >= budget.value`, else increment the iteration counter
(`increment_iteration`), run the training (abstracted to a success
flag), and on success store `update_session_budget(session.id,
iteration)`; the failure paths `continue` without updating the used
budget. -/
def runRunsBudgetLoop (loopValue : Nat) (led : BudgetLedger) :
    List Bool → BudgetLedger
  | [] => led
  | success :: rest =>
    if led.iterationCount ≥ loopValue then
      { led with terminated := some TerminationReason.budget_exhausted }
    else
      let led1 := { led with iterationCount := led.iterationCount + 1 }
      let led2 :=
        if success then { led1 with budgetUsed := led1.iterationCount } else led1
      runRunsBudgetLoop loopValue led2 rest

/-- `resume_loop` (`revis/loop.py`): the resumed loop is started with
`Budget(type=..., value=session.budget.remaining())` where
`remaining() = max(0, value - used)`; the session row keeps its
original `budget_value`. -/
def resumeBudgetValue (led : BudgetLedger) : Nat :=
  led.budgetValue - led.budgetUsed

/-- The retry bookkeeping of the failure path (`_run_loop`): decrement
the stored retry budget and terminate with retry-exhaustion when it
reaches zero or below. -/
def retryAfterFailure (retryBudget : Int) : Int × Option TerminationReason :=
  let newRetry := retryBudget - 1
  (newRetry, if newRetry ≤ 0 then some TerminationReason.retry_exhaustion else none)

/-!  Guardrail detectors (`revis/analyzer/detectors.py`).  -/

/-- Result of a guardrail check (`GuardrailResult` dataclass; the
severity field defaults to "warning").  Human-readable messages are
kept but their embedded number formatting is abbreviated. -/
structure GuardrailResult where
  triggered : Bool
  guardrail : String
  message : String
  severity : String := "warning"
deriving DecidableEq, Repr

/-- Python `min` over a list (total with junk value 0 on the empty
list, which the guarded call site never passes for `n_runs ≥ 1`). -/
def pyListMin : List ℚ → ℚ
  | [] => 0
  | x :: xs => xs.foldl min x

/-- Python `max` over a list (same convention as `pyListMin`). -/
def pyListMax : List ℚ → ℚ
  | [] => 0
  | x :: xs => xs.foldl max x

/-- The `improvement` quantity of `detect_plateau` (`detectors.py`
lines computing `best_before`, `best_recent`, `improvement`):
`history[-n:]` is `drop (length - n)` and `history[:-n]` is
`take (length - n)` for `n_runs ≥ 1`; a zero best-before value makes
the improvement 0. -/
def plateauImprovement (metric_history : List ℚ) (n_runs : Nat)
    (minimize : Bool) : ℚ :=
  if minimize then
    (if pyListMin (metric_history.take (metric_history.length - n_runs)) ≠ 0 then
      (pyListMin (metric_history.take (metric_history.length - n_runs)) -
        pyListMin (metric_history.drop (metric_history.length - n_runs))) /
        |pyListMin (metric_history.take (metric_history.length - n_runs))|
    else 0)
  else
    (if pyListMax (metric_history.take (metric_history.length - n_runs)) ≠ 0 then
      (pyListMax (metric_history.drop (metric_history.length - n_runs)) -
        pyListMax (metric_history.take (metric_history.length - n_runs))) /
        |pyListMax (metric_history.take (metric_history.length - n_runs))|
    else 0)

/-- `detect_plateau` (`detectors.py`): with history of length `> n_runs`,
compare the best of the last `n_runs` entries against the best of the
prior prefix and trigger (severity warning) when the fractional
improvement is below the threshold.  Modelled for `n_runs ≥ 1` (with
`n_runs = 0` the Python code raises on `min([])`, which is outside the
modelled domain). -/
def detect_plateau (metric_history : List ℚ) (threshold : ℚ)
    (n_runs : Nat) (minimize : Bool) : GuardrailResult :=
  if metric_history.length ≤ n_runs then
    { triggered := false, guardrail := "plateau_detection",
      message := "Not enough history" }
  else
    if plateauImprovement metric_history n_runs minimize < threshold then
      { triggered := true, guardrail := "plateau_detection",
        message := "Plateau detected", severity := "warning" }
    else
      { triggered := false, guardrail := "plateau_detection",
        message := "No plateau" }

/-!  Deny-pattern matching (`revis/llm/tools.py`, `ToolExecutor.is_denied`).

`fnmatch` and the `re.match` call on the `**`-translated pattern are
modelled by two small matchers over compiled token lists.  Character
classes follow `[...]` semantics (optional leading negation, ranges by
code point, a `]` right after the opening bracket is literal, an
unbalanced `[` is literal). -/

/-- Parse the items of a character class up to the closing `]`: returns
the `(low, high)` ranges (a single character is a degenerate range) and
the characters after the `]`; `none` when no closing `]` exists. -/
def parseClassItems : List Char → Option (List (Char × Char) × List Char)
  | [] => none
  | ']' :: rest => some ([], rest)
  | a :: '-' :: b :: rest =>
    if b = ']' then some ([(a, a), ('-', '-')], rest)
    else (parseClassItems rest).map (fun p => ((a, b) :: p.1, p.2))
  | a :: rest => (parseClassItems rest).map (fun p => ((a, a) :: p.1, p.2))

/-- Whether a character falls in one of the class ranges. -/
def classMatches (items : List (Char × Char)) (c : Char) : Bool :=
  items.any (fun p => p.1 ≤ c && c ≤ p.2)

theorem parseClassItems_length {cs : List Char} {is : List (Char × Char)}
    {r : List Char} (h : parseClassItems cs = some (is, r)) :
    r.length < cs.length := by
  induction cs using parseClassItems.induct generalizing is r with
  | case1 => simp [parseClassItems] at h
  | case2 rest =>
    simp [parseClassItems] at h
    simp [h.2]
  | case3 a rest ha =>
    rw [parseClassItems.eq_3 a ']' rest ha, if_pos rfl] at h
    simp at h
    simp [h.2]
    omega
  | case4 a b rest ha hb ih =>
    rw [parseClassItems.eq_3 a b rest ha, if_neg hb] at h
    obtain ⟨⟨i2, r2⟩, hp, he⟩ := Option.map_eq_some'.mp h
    cases he
    have := ih hp
    simp at this ⊢
    omega
  | case5 a rest h1 h2 ih =>
    rw [parseClassItems.eq_4 a rest h1 h2] at h
    obtain ⟨⟨i2, r2⟩, hp, he⟩ := Option.map_eq_some'.mp h
    cases he
    have := ih hp
    simp at this ⊢
    omega

/-- The class body: a `]` in the first position is a literal member. -/
def parseGlobBody : List Char → Option (List (Char × Char) × List Char)
  | ']' :: r2 => (parseClassItems r2).map (fun p => ((']', ']') :: p.1, p.2))
  | ps => parseClassItems ps

/-- A glob-pattern class after the opening `[`: a leading `!` negates
(`fnmatch.translate` semantics). -/
def parseGlobClass : List Char → Option (Bool × List (Char × Char) × List Char)
  | '!' :: ps => (parseGlobBody ps).map (fun p => (true, p.1, p.2))
  | ps => (parseGlobBody ps).map (fun p => (false, p.1, p.2))

theorem parseGlobBody_length {ps r : List Char} {is : List (Char × Char)}
    (h : parseGlobBody ps = some (is, r)) : r.length < ps.length := by
  unfold parseGlobBody at h
  split at h
  · next r2 =>
    obtain ⟨⟨i2, r3⟩, hp, he⟩ := Option.map_eq_some'.mp h
    cases he
    have := parseClassItems_length hp
    simp at this ⊢
    omega
  · exact parseClassItems_length h

theorem parseGlobClass_length {ps r : List Char} {n : Bool}
    {is : List (Char × Char)} (h : parseGlobClass ps = some (n, is, r)) :
    r.length < ps.length := by
  unfold parseGlobClass at h
  split at h
  · next ps2 =>
    obtain ⟨⟨i2, r3⟩, hp, he⟩ := Option.map_eq_some'.mp h
    cases he
    have := parseGlobBody_length hp
    simp
    omega
  · obtain ⟨⟨i2, r3⟩, hp, he⟩ := Option.map_eq_some'.mp h
    cases he
    exact parseGlobBody_length hp

/-!  Character-level string helpers.

The core `String` library functions (`replace`, `splitOn`, `toLower`,
`startsWith`, `intercalate`, ...) are re-implemented structurally over
the character lists of strings, so that all concrete evaluations reduce
inside the kernel; each carries the Python semantics of the call site
it stands in for. -/

/-- Lexicographic order on character lists (by code point). -/
def charListLe : List Char → List Char → Bool
  | [], _ => true
  | _ :: _, [] => false
  | a :: as, b :: bs =>
    if a < b then true
    else if b < a then false
    else charListLe as bs

/-- Lexicographic string comparison (Python `sorted` over path parts,
approximated by whole-string order). -/
def strLeb (a b : String) : Bool :=
  charListLe a.toList b.toList

/-- `str.lower()`. -/
def strToLower (s : String) : String :=
  String.mk (s.toList.map Char.toLower)

/-- `c in s` for a single character. -/
def strContains (s : String) (c : Char) : Bool :=
  s.toList.contains c

/-- `s.startswith(pre)`. -/
def strStartsWith (s pre : String) : Bool :=
  pre.toList.isPrefixOf s.toList

/-- Worker for `splitOnChar`: accumulates the current field reversed. -/
def splitOnCharGo (sep : Char) : List Char → List Char → List String
  | [], acc => [String.mk acc.reverse]
  | c :: rest, acc =>
    if c = sep then String.mk acc.reverse :: splitOnCharGo sep rest []
    else splitOnCharGo sep rest (c :: acc)

/-- Python `s.split(sep)` for a one-character separator (empty fields
kept; `"".split(sep) == [""]`). -/
def splitOnChar (sep : Char) (s : String) : List String :=
  splitOnCharGo sep s.toList []

/-- `sep.join(parts)`. -/
def strIntercalate (sep : String) : List String → String
  | [] => ""
  | [x] => x
  | x :: xs => x ++ sep ++ strIntercalate sep xs

/-- Fueled worker for `pyReplace`; the fuel `hay.length + 1` always
suffices because every step consumes at least one character of the
haystack (the needle is nonempty at both call sites). -/
def pyReplaceF (needle repl : List Char) : Nat → List Char → List Char
  | 0, hay => hay
  | _ + 1, [] => []
  | fuel + 1, c :: rest =>
    if needle.isPrefixOf (c :: rest) && !needle.isEmpty then
      repl ++ pyReplaceF needle repl fuel ((c :: rest).drop needle.length)
    else c :: pyReplaceF needle repl fuel rest

/-- Python `s.replace(needle, repl)`: left-to-right, non-overlapping. -/
def pyReplace (s needle repl : String) : String :=
  String.mk (pyReplaceF needle.toList repl.toList (s.toList.length + 1) s.toList)

/-- One compiled token of an `fnmatch` glob pattern. -/
inductive GlobTok
  | star
  | qmark
  | cls (neg : Bool) (items : List (Char × Char))
  | lit (c : Char)
deriving DecidableEq, Repr

/-- Fueled worker for `compileGlob`: every step consumes at least one
pattern character (`parseGlobClass_length`), so fuel `cs.length + 1`
always suffices. -/
def compileGlobF : Nat → List Char → List GlobTok
  | 0, _ => []
  | _ + 1, [] => []
  | fuel + 1, '*' :: ps => GlobTok.star :: compileGlobF fuel ps
  | fuel + 1, '?' :: ps => GlobTok.qmark :: compileGlobF fuel ps
  | fuel + 1, '[' :: ps =>
    match parseGlobClass ps with
    | some (neg, items, rest) => GlobTok.cls neg items :: compileGlobF fuel rest
    | none => GlobTok.lit '[' :: compileGlobF fuel ps
  | fuel + 1, c :: ps => GlobTok.lit c :: compileGlobF fuel ps

/-- Compile a glob into tokens: `*`, `?`, `[...]` classes (an
unbalanced `[` stays a literal), everything else literal. -/
def compileGlob (cs : List Char) : List GlobTok :=
  compileGlobF (cs.length + 1) cs

/-- Whether one glob token accepts one character. -/
def globTokAccepts (t : GlobTok) (c : Char) : Bool :=
  match t with
  | GlobTok.star => true
  | GlobTok.qmark => true
  | GlobTok.cls neg items => classMatches items c != neg
  | GlobTok.lit p => c == p

/-- Fueled worker for `globToksMatch`: every recursive call shrinks
`ts.length + s.length`, so fuel `ts.length + s.length + 1` suffices. -/
def globToksMatchF : Nat → List GlobTok → List Char → Bool
  | 0, _, _ => false
  | _ + 1, [], s => s.isEmpty
  | fuel + 1, GlobTok.star :: ts, s =>
    globToksMatchF fuel ts s ||
      (match s with
       | [] => false
       | _ :: s2 => globToksMatchF fuel (GlobTok.star :: ts) s2)
  | fuel + 1, t :: ts, s =>
    match s with
    | [] => false
    | c :: s2 => globTokAccepts t c && globToksMatchF fuel ts s2

/-- Match compiled glob tokens against a whole string
(`fnmatch.translate` anchors the regex at both ends, so the entire
string must be consumed). -/
def globToksMatch (ts : List GlobTok) (s : List Char) : Bool :=
  globToksMatchF (ts.length + s.length + 1) ts s

/-- Python `fnmatch.fnmatch(name, pattern)` (POSIX `normcase` is the
identity, so this is case-sensitive `fnmatchcase`). -/
def fnmatch (name pattern : String) : Bool :=
  globToksMatch (compileGlob pattern.toList) name.toList

/-!  The `**` branch of `is_denied` translates the pattern with
`pattern.replace("**", ".*").replace("*", "[^/]*")` and runs
`re.match`.  Note the second `replace` also rewrites the `*` that the
first one just produced, so `**` really becomes `.[^/]*`.  The
translated pattern is interpreted by a small regex matcher supporting
exactly the constructs such glob-derived patterns contain: literals,
`.`, `[...]` classes with `^` negation, and the postfix quantifiers
`*` and `?`.  (Patterns containing other regex metacharacters are
outside the modelled domain; an unbalanced `[` is kept literal.) -/

/-- One regex token: `.`, a class, or a literal character. -/
inductive RegTok
  | dot
  | cls (neg : Bool) (items : List (Char × Char))
  | lit (c : Char)
deriving DecidableEq, Repr

/-- A regex piece: a token with an optional postfix quantifier. -/
inductive RegPiece
  | once (t : RegTok)
  | star (t : RegTok)
  | opt (t : RegTok)
deriving DecidableEq, Repr

/-- A regex class after the opening `[`: a leading `^` negates. -/
def parseRegClass : List Char → Option (Bool × List (Char × Char) × List Char)
  | '^' :: ps => (parseGlobBody ps).map (fun p => (true, p.1, p.2))
  | ps => (parseGlobBody ps).map (fun p => (false, p.1, p.2))

theorem parseRegClass_length {ps r : List Char} {n : Bool}
    {is : List (Char × Char)} (h : parseRegClass ps = some (n, is, r)) :
    r.length < ps.length := by
  unfold parseRegClass at h
  split at h
  · next ps2 =>
    obtain ⟨⟨i2, r3⟩, hp, he⟩ := Option.map_eq_some'.mp h
    cases he
    have := parseGlobBody_length hp
    simp
    omega
  · obtain ⟨⟨i2, r3⟩, hp, he⟩ := Option.map_eq_some'.mp h
    cases he
    exact parseGlobBody_length hp

/-- Read a single regex token from the front of the pattern.  A class
uses `^` for negation and a first-position `]` is literal, as in `re`;
an unbalanced `[` is kept literal. -/
def regTokOf (cs : List Char) : Option (RegTok × List Char) :=
  match cs with
  | [] => none
  | '.' :: ps => some (RegTok.dot, ps)
  | '[' :: ps =>
    match parseRegClass ps with
    | some (neg, items, rest) => some (RegTok.cls neg items, rest)
    | none => some (RegTok.lit '[', ps)
  | c :: ps => some (RegTok.lit c, ps)

theorem regTokOf_length {cs rest : List Char} {t : RegTok}
    (h : regTokOf cs = some (t, rest)) : rest.length < cs.length := by
  unfold regTokOf at h
  split at h
  · simp at h
  · next ps => cases h; simp
  · next ps =>
    split at h
    · next neg items r2 hp =>
      cases h
      have := parseRegClass_length hp
      simp
      omega
    · cases h
      simp
  · next c ps h1 h2 h3 => cases h; simp

/-- Fueled worker for `compileReg`: every step consumes at least one
pattern character (`regTokOf_length`), so fuel `cs.length + 1`
suffices. -/
def compileRegF : Nat → List Char → List RegPiece
  | 0, _ => []
  | fuel + 1, cs =>
    match regTokOf cs with
    | none => []
    | some (t, '*' :: r2) => RegPiece.star t :: compileRegF fuel r2
    | some (t, '?' :: r2) => RegPiece.opt t :: compileRegF fuel r2
    | some (t, rest) => RegPiece.once t :: compileRegF fuel rest

/-- Compile a translated deny pattern into regex pieces, attaching
postfix `*` / `?` quantifiers. -/
def compileReg (cs : List Char) : List RegPiece :=
  compileRegF (cs.length + 1) cs

/-- Whether one regex token accepts one character (`.` is modelled as
accepting every character; re's newline exception never matters for
repository paths). -/
def regTokAccepts (t : RegTok) (c : Char) : Bool :=
  match t with
  | RegTok.dot => true
  | RegTok.cls neg items => classMatches items c != neg
  | RegTok.lit p => c == p

/-- Fueled worker for `regMatch`: every recursive call shrinks
`ps.length + s.length`, so fuel `ps.length + s.length + 1` suffices. -/
def regMatchF : Nat → List RegPiece → List Char → Bool
  | 0, _, _ => false
  | _ + 1, [], _ => true
  | fuel + 1, RegPiece.once t :: ps, s =>
    match s with
    | [] => false
    | c :: s2 => regTokAccepts t c && regMatchF fuel ps s2
  | fuel + 1, RegPiece.opt t :: ps, s =>
    regMatchF fuel ps s ||
      (match s with
       | [] => false
       | c :: s2 => regTokAccepts t c && regMatchF fuel ps s2)
  | fuel + 1, RegPiece.star t :: ps, s =>
    regMatchF fuel ps s ||
      (match s with
       | [] => false
       | c :: s2 => regTokAccepts t c && regMatchF fuel (RegPiece.star t :: ps) s2)

/-- `re.match` semantics: the pieces must consume a prefix of the
string (no end anchor). -/
def regMatch (ps : List RegPiece) (s : List Char) : Bool :=
  regMatchF (ps.length + s.length + 1) ps s

/-- `"**" in pattern`. -/
def hasDoubleStar (pattern : String) : Bool :=
  go pattern.toList
where
  go : List Char → Bool
    | [] => false
    | c :: rest => (c = '*' && (rest.headD ' ') = '*') || go rest

/-- The translated regex text of a deny pattern:
`pattern.replace("**", ".*").replace("*", "[^/]*")`. -/
def denyTranslate (pattern : String) : String :=
  pyReplace (pyReplace pattern "**" ".*") "*" "[^/]*"

/-- `Path(path).name`: the last non-empty, non-`.` component. -/
def pathBasename (path : String) : String :=
  (((splitOnChar '/' path).filter
      (fun s => !(s == "") && !(s == "."))).getLast?).getD ""

/-- `ToolExecutor.is_denied`: a path is denied when any pattern
fnmatches the path or its basename, or — for patterns containing
`**` — when the translated regex matches a prefix of the path. -/
def is_denied (denyPatterns : List String) (path : String) : Bool :=
  denyPatterns.any (fun pattern =>
    fnmatch path pattern || fnmatch (pathBasename path) pattern ||
      (hasDoubleStar pattern &&
        regMatch (compileReg (denyTranslate pattern).toList) path.toList))

/-!  Repository filesystem model for the read/list tools.

Paths are repo-root-relative strings without a leading `./`; a file
carries its text as a list of lines (the trailing-newline details of
`read_text`/`splitlines` are abstracted by making the full text the
lines joined with `\n`). -/

/-- A filesystem node: a text file or a directory. -/
inductive FSNode
  | file (lines : List String)
  | dir
deriving DecidableEq, Repr

/-- The repository tree as a finite map from relative path to node. -/
structure FileSystem where
  entries : List (String × FSNode)
deriving DecidableEq, Repr

/-- Look a path up in the tree. -/
def FileSystem.lookup (fs : FileSystem) (path : String) : Option FSNode :=
  (fs.entries.find? (fun e => e.1 == path)).map (fun e => e.2)

/-- The string prefix of entries inside directory `path` (`"."` is the
repository root). -/
def dirPrefixOf (path : String) : String :=
  if path == "." then "" else path ++ "/"

/-- Direct children of a directory (`Path.iterdir`). -/
def FileSystem.childrenOf (fs : FileSystem) (path : String) :
    List (String × FSNode) :=
  let pre := (dirPrefixOf path).toList
  fs.entries.filter (fun e =>
    pre.isPrefixOf e.1.toList && !((e.1.toList.drop pre.length).contains '/'))

/-- All entries under a directory (`Path.rglob("*")`). -/
def FileSystem.descendantsOf (fs : FileSystem) (path : String) :
    List (String × FSNode) :=
  let pre := (dirPrefixOf path).toList
  fs.entries.filter (fun e => pre.isPrefixOf e.1.toList)

/-- Insertion step for sorting entries by path (Python `sorted` over
`Path` objects, approximated by the string order on relative paths). -/
def insertEntryAsc (e : String × FSNode) :
    List (String × FSNode) → List (String × FSNode)
  | [] => [e]
  | x :: xs => if strLeb e.1 x.1 then e :: x :: xs else x :: insertEntryAsc e xs

/-- Sort entries by path ascending. -/
def sortEntriesAsc (l : List (String × FSNode)) : List (String × FSNode) :=
  l.foldr insertEntryAsc []

namespace ToolExecutor

/-- `ToolExecutor.tool_read_file`: denied paths get the access-denied
message before any filesystem access; otherwise return the content, or
a numbered slice when a (truthy) line bound is given.  The function
only reads, so it returns text without a filesystem. -/
def tool_read_file (fs : FileSystem) (denyPatterns : List String)
    (path : String) (startLine endLine : Option Nat) : String :=
  if is_denied denyPatterns path then s!"Access denied: {path}"
  else
    match fs.lookup path with
    | none => s!"File not found: {path}"
    | some FSNode.dir => s!"Not a file: {path}"
    | some (FSNode.file lines) =>
      let startTruthy := startLine.getD 0 ≠ 0
      let endTruthy := endLine.getD 0 ≠ 0
      if startTruthy || endTruthy then
        let start := (if startTruthy then startLine.getD 1 else 1) - 1
        let stop := if endTruthy then endLine.getD 0 else lines.length
        let slice := (lines.take stop).drop start
        strIntercalate "\n"
          (slice.enum.map (fun pr =>
            match pr with
            | (i, line) => s!"{i + start + 1}: {line}"))
      else strIntercalate "\n" lines

/-- The entries `ToolExecutor.tool_list_directory` displays, paired
with the relative path the deny filter was applied to: sorted, the
deny-matching ones dropped, directories suffixed with `/`; the
non-recursive form displays only the entry name. -/
def tool_list_directory_entries (fs : FileSystem) (denyPatterns : List String)
    (path : String) (recursive : Bool) : List (String × String) :=
  if recursive then
    (sortEntriesAsc (fs.descendantsOf path)).filterMap (fun e =>
      if is_denied denyPatterns e.1 then none
      else some (e.1 ++ (if e.2 = FSNode.dir then "/" else ""), e.1))
  else
    (sortEntriesAsc (fs.childrenOf path)).filterMap (fun e =>
      if is_denied denyPatterns e.1 then none
      else some ((String.mk (e.1.toList.drop (dirPrefixOf path).toList.length)) ++
        (if e.2 = FSNode.dir then "/" else ""), e.1))

/-- `ToolExecutor.tool_list_directory`: note there is no deny check on
the `path` argument itself; only individual entries are filtered.  The
result is capped at 500 entries. -/
def tool_list_directory (fs : FileSystem) (denyPatterns : List String)
    (path : String) (recursive : Bool) : String :=
  match fs.lookup path with
  | none => s!"Directory not found: {path}"
  | some (FSNode.file _) => s!"Not a directory: {path}"
  | some FSNode.dir =>
    let results :=
      (tool_list_directory_entries fs denyPatterns path recursive).map
        (fun e => e.1)
    if results.isEmpty then "(empty)"
    else strIntercalate "\n" (results.take 500)

end ToolExecutor

/-!  Configuration files and `ToolExecutor.tool_modify_config`.

File contents are modelled post-parse: the YAML/JSON/TOML loaders of
the Python code are abstracted by letting the store hold the parsed
tree directly (`tomllib` is taken as importable, i.e. Python ≥ 3.11). -/

/-- A parsed configuration value (the Python types `modify_config` can
meet: bool, int, float, str, list, dict). -/
inductive ConfigValue
  | bool (b : Bool)
  | int (n : Int)
  | float (q : ℚ)
  | str (s : String)
  | list (xs : List ConfigValue)
  | dict (kvs : List (String × ConfigValue))

/-- The Python runtime type of a config value (`type(old_value)`). -/
inductive CfgType
  | bool
  | int
  | float
  | str
  | list
  | dict
deriving DecidableEq, Repr

/-- `type(old_value)` of a parsed value. -/
def cfgTypeOf : ConfigValue → CfgType
  | ConfigValue.bool _ => CfgType.bool
  | ConfigValue.int _ => CfgType.int
  | ConfigValue.float _ => CfgType.float
  | ConfigValue.str _ => CfgType.str
  | ConfigValue.list _ => CfgType.list
  | ConfigValue.dict _ => CfgType.dict

/-- Association-list lookup inside a parsed dict. -/
def lookupKey (kvs : List (String × ConfigValue)) (k : String) :
    Option ConfigValue :=
  (kvs.find? (fun e => e.1 == k)).map (fun e => e.2)

/-- Errors while walking a dotted key path: a missing key (the code's
`Key not found` return) or a traversal step through a non-mapping value
(a raised `TypeError`, caught by the outer `except`).  Membership tests
on non-mapping values are uniformly modelled as the type error. -/
inductive CfgErr
  | keyNotFound
  | typeErr
deriving DecidableEq, Repr

/-- Walk a dotted key path down the parsed tree. -/
def getAtPath : ConfigValue → List String → Except CfgErr ConfigValue
  | v, [] => Except.ok v
  | v, k :: ks =>
    match v with
    | ConfigValue.dict kvs =>
      match lookupKey kvs k with
      | none => Except.error CfgErr.keyNotFound
      | some v2 => getAtPath v2 ks
    | _ => Except.error CfgErr.typeErr

/-- Replace the value bound to an existing key of a dict. -/
def setKey (kvs : List (String × ConfigValue)) (k : String)
    (v : ConfigValue) : List (String × ConfigValue) :=
  kvs.map (fun e => if e.1 == k then (e.1, v) else e)

/-- Write a new value at a dotted key path (only reached after
`getAtPath` succeeded). -/
def setAtPath : ConfigValue → List String → ConfigValue → ConfigValue
  | _, [], nv => nv
  | v, k :: ks, nv =>
    match v with
    | ConfigValue.dict kvs =>
      match lookupKey kvs k with
      | none => ConfigValue.dict kvs
      | some v2 => ConfigValue.dict (setKey kvs k (setAtPath v2 ks nv))
    | other => other

/-- The numeric value of a digit run. -/
def digitsVal (ds : List Char) : Nat :=
  ds.foldl (fun a c => a * 10 + (c.toNat - 48)) 0

/-- Split a leading digit run off a character list. -/
def takeDigits (cs : List Char) : List Char × List Char :=
  (cs.takeWhile Char.isDigit, cs.dropWhile Char.isDigit)

/-- Python `float(value)` on decimal literals: optional sign, integer
and/or fractional digits, optional exponent.  (`inf`/`nan`/underscore
separators/surrounding whitespace are outside the modelled domain.) -/
def parsePyFloatStr (s : String) : Option ℚ :=
  let cs0 := s.toList
  let sgn : ℚ × List Char := match cs0 with
    | '-' :: r => (-1, r)
    | '+' :: r => (1, r)
    | _ => (1, cs0)
  let ip := takeDigits sgn.2
  let fp : Option (List Char) × List Char := match ip.2 with
    | '.' :: r => (some (takeDigits r).1, (takeDigits r).2)
    | _ => (none, ip.2)
  if ip.1.isEmpty && (fp.1.getD []).isEmpty then none
  else
    let mant : ℚ := sgn.1 * ((digitsVal ip.1 : ℚ) +
      (match fp.1 with
       | some d => (digitsVal d : ℚ) / ((10 : ℚ) ^ d.length)
       | none => 0))
    match fp.2 with
    | [] => some mant
    | e :: r =>
      if e = 'e' ∨ e = 'E' then
        let esgn : Int × List Char := match r with
          | '-' :: r2 => (-1, r2)
          | '+' :: r2 => (1, r2)
          | _ => (1, r)
        let ed := takeDigits esgn.2
        if ed.1.isEmpty || !ed.2.isEmpty then none
        else some (mant * (10 : ℚ) ^ (esgn.1 * (digitsVal ed.1 : Int)))
      else none

/-- Python `int(value)` on decimal literals: optional sign and digits. -/
def parsePyIntStr (s : String) : Option Int :=
  let cs0 := s.toList
  let sgn : Int × List Char := match cs0 with
    | '-' :: r => (-1, r)
    | '+' :: r => (1, r)
    | _ => (1, cs0)
  let ds := takeDigits sgn.2
  if ds.1.isEmpty || !ds.2.isEmpty then none
  else some (sgn.1 * (digitsVal ds.1 : Int))

/-- `ToolExecutor._parse_value`: coerce the incoming string to the old
value's runtime type.  `int` targets go through `float` truncation when
the string looks fractional or scientific; `bool` targets never fail;
`list`/`dict` targets use `json.loads`, which is outside the modelled
domain (`none` here, matching a raised error being caught). -/
def parse_value (value : String) : CfgType → Option ConfigValue
  | CfgType.bool =>
    some (ConfigValue.bool (["true", "1", "yes", "on"].contains (strToLower value)))
  | CfgType.int =>
    if strContains (strToLower value) 'e' || strContains value '.' then
      (parsePyFloatStr value).map (fun q => ConfigValue.int (Int.tdiv q.num q.den))
    else (parsePyIntStr value).map ConfigValue.int
  | CfgType.float => (parsePyFloatStr value).map ConfigValue.float
  | CfgType.str => some (ConfigValue.str value)
  | CfgType.list => none
  | CfgType.dict => none

/-- `Path(path).suffix.lower()`: the dotted extension of the basename,
empty when the dot is missing, first, or last. -/
def suffixLower (path : String) : String :=
  let name := (pathBasename path).toList
  let rev := name.reverse
  let ext := rev.takeWhile (fun c => c ≠ '.')
  if ext.length = rev.length then ""
  else if ext.isEmpty then ""
  else if ext.length + 1 = rev.length then ""
  else String.mk (('.' :: ext.reverse).map Char.toLower)

/-- The configuration files on disk, path → parsed tree. -/
structure ConfigStore where
  files : List (String × ConfigValue)

/-- Look a config file up. -/
def ConfigStore.lookup (cs : ConfigStore) (path : String) :
    Option ConfigValue :=
  (cs.files.find? (fun e => e.1 == path)).map (fun e => e.2)

/-- `full_path.write_text(new_content)`: replace a file's parsed tree. -/
def ConfigStore.write (cs : ConfigStore) (path : String) (v : ConfigValue) :
    ConfigStore :=
  { files := cs.files.map (fun e => if e.1 == path then (e.1, v) else e) }

/-- One recorded entry of `ToolExecutor.config_changes`. -/
structure ConfigChange where
  path : String
  key : String
  oldValue : ConfigValue
  newValue : ConfigValue

namespace ToolExecutor

/-- `ToolExecutor.tool_modify_config`: deny check, existence check,
extension check, dotted-key walk (which must find an existing key),
value coercion, then — crucially in this order — append the change to
`config_changes` and only afterwards serialize: YAML/JSON files are
written back, while the TOML branch returns `"Writing TOML not
supported"` without writing (the success message's embedded
old/new-value formatting is abbreviated). -/
def tool_modify_config (cfs : ConfigStore) (denyPatterns : List String)
    (config_changes : List ConfigChange) (path key value : String) :
    String × ConfigStore × List ConfigChange :=
  if is_denied denyPatterns path then
    (s!"Access denied: {path}", cfs, config_changes)
  else
    match cfs.lookup path with
    | none => (s!"Config file not found: {path}", cfs, config_changes)
    | some data =>
      let sfx := suffixLower path
      if !([".yaml", ".yml", ".json", ".toml"].contains sfx) then
        (s!"Unsupported config format: {sfx}", cfs, config_changes)
      else
        let keys := splitOnChar '.' key
        match getAtPath data keys with
        | Except.error CfgErr.keyNotFound =>
          (s!"Key not found: {key}", cfs, config_changes)
        | Except.error CfgErr.typeErr =>
          ("Error modifying config: unsupported key path", cfs, config_changes)
        | Except.ok oldValue =>
          match parse_value value (cfgTypeOf oldValue) with
          | none => ("Error modifying config: invalid value", cfs, config_changes)
          | some newValue =>
            let changes := config_changes ++
              [{ path := path, key := key,
                 oldValue := oldValue, newValue := newValue }]
            if sfx == ".yaml" || sfx == ".yml" || sfx == ".json" then
              (s!"Modified {path}: {key}",
                cfs.write path (setAtPath data keys newValue), changes)
            else
              ("Writing TOML not supported", cfs, changes)

end ToolExecutor

/-- The orchestrator's observation after the agent ran
(`loop.py`: `has_config_changes = len(self.tool_executor.config_changes) > 0`). -/
def has_config_changes (config_changes : List ConfigChange) : Bool :=
  decide (config_changes.length > 0)

/-!  Metrics collectors (`revis/metrics/eval_json.py`,
`revis/metrics/wandb.py`). -/

/-- A parsed JSON value (`json.loads` output). -/
inductive Json
  | null
  | bool (b : Bool)
  | num (q : ℚ)
  | str (s : String)
  | arr (xs : List Json)
  | obj (kvs : List (String × Json))

/-- Lookup in a parsed JSON object. -/
def jsonLookup (kvs : List (String × Json)) (k : String) : Option Json :=
  (kvs.find? (fun e => e.1 == k)).map (fun e => e.2)

/-- `isinstance(value, (int, float))` followed by `float(value)`: note
Python `bool` is a subclass of `int`, so booleans pass the check and
coerce to 0.0/1.0. -/
def jsonAsNumber : Json → Option ℚ
  | Json.num q => some q
  | Json.bool b => some (if b then 1 else 0)
  | _ => none

/-- `EvalJsonCollector.get_metrics` after `json.loads`: `none` models a
missing/unreadable/undecodable file or any caught exception; a present
top-level `"metrics"` mapping is filtered to its numeric entries, every
other shape ends in the caught-exception path. -/
def EvalJsonCollector.get_metrics (data : Option Json) :
    Option (List (String × ℚ)) :=
  match data with
  | none => none
  | some j =>
    match j with
    | Json.obj kvs =>
      match jsonLookup kvs "metrics" with
      | none => none
      | some (Json.obj mkvs) =>
        some (mkvs.filterMap (fun e =>
          (jsonAsNumber e.2).map (fun q => (e.1, q))))
      | some _ => none
    | _ => none

/-- The tracker's view of a run: its reported state and final summary. -/
structure WandbRun where
  state : String
  summary : List (String × Json)

/-- `WandbCollector.get_metrics_from_log` after the run-id regex and
API fetch (modelled as the already-fetched run, `none` when the log had
no run URL or the fetch failed): refuse states other than
finished/crashed, then keep the numeric summary entries whose key does
not start with an underscore. -/
def WandbCollector.get_metrics_from_log (run : Option WandbRun) :
    Option (List (String × ℚ)) :=
  match run with
  | none => none
  | some r =>
    if !(r.state == "finished" || r.state == "crashed") then none
    else
      some (r.summary.filterMap (fun e =>
        if !(strStartsWith e.1 "_") then
          (jsonAsNumber e.2).map (fun q => (e.1, q))
        else none))

/-!  Executor log tails (`revis/executor/local.py`,
`revis/executor/ssh.py`). -/

/-- The observable state an executor's shell sees: files under the
work directory (path → lines) and the current screen capture of each
live tmux session. -/
structure ExecHostState where
  files : List (String × List String)
  panes : List (String × String)
deriving DecidableEq, Repr

/-- File lookup on the host. -/
def ExecHostState.readLines (st : ExecHostState) (path : String) :
    Option (List String) :=
  (st.files.find? (fun e => e.1 == path)).map (fun e => e.2)

/-- `tail -n lines path`: the last `lines` lines. -/
def tailLines (lines : Nat) (content : List String) : List String :=
  content.drop (content.length - lines)

namespace LocalExecutor

/-- `LocalExecutor.get_log_tail`: `tail` the file when it exists,
otherwise return the empty string — there is no tmux fallback here. -/
def get_log_tail (st : ExecHostState) (logPath : String) (lines : Nat) :
    String :=
  match st.readLines logPath with
  | some content => strIntercalate "\n" (tailLines lines content)
  | none => ""

/-- `LocalExecutor.get_tmux_output`: the current screen capture of the
named session (empty when `tmux capture-pane` fails because the session
does not exist). -/
def get_tmux_output (st : ExecHostState) (sessionName : String) : String :=
  match (st.panes.find? (fun e => e.1 == sessionName)).map (fun e => e.2) with
  | some pane => pane
  | none => ""

end LocalExecutor

namespace SSHExecutor

/-- `SSHExecutor.get_log_tail`: `tail` the remote file; when that exits
nonzero (missing file) fall back to `tmux capture-pane -t revis` — the
literal session name `revis` — returning whatever output that produced
(empty when that session does not exist either). -/
def get_log_tail (st : ExecHostState) (logPath : String) (lines : Nat) :
    String :=
  match st.readLines logPath with
  | some content => strIntercalate "\n" (tailLines lines content)
  | none =>
    match (st.panes.find? (fun e => e.1 == "revis")).map (fun e => e.2) with
    | some pane => pane
    | none => ""

end SSHExecutor

/-!  ## Theorems -/

/-- Updating the matching rows of a session list commutes with finding
the addressed row, provided the update preserves the id. -/
theorem find_map_ifId (l : List SessionRow) (sid : String)
    (f : SessionRow → SessionRow) (hf : ∀ s, (f s).id = s.id) :
    (l.map (fun s => if s.id == sid then f s else s)).find?
        (fun s => s.id == sid) =
      (l.find? (fun s => s.id == sid)).map f := by
  induction l with
  | nil => rfl
  | cons x xs ih =>
    cases hx : x.id == sid with
    | true =>
      have hfx : ((f x).id == sid) = true := by rw [hf x]; exact hx
      have hgx : (if x.id == sid then f x else x) = f x := by simp [hx]
      simp only [List.map_cons]
      rw [hgx, @List.find?_cons_of_pos _ (fun s => s.id == sid) (f x) _ hfx,
        @List.find?_cons_of_pos _ (fun s => s.id == sid) x _ hx]
      rfl
    | false =>
      have hgx : (if x.id == sid then f x else x) = x := by simp [hx]
      simp only [List.map_cons]
      rw [hgx, @List.find?_cons_of_neg _ (fun s => s.id == sid) x _ (by simp [hx]),
        @List.find?_cons_of_neg _ (fun s => s.id == sid) x _ (by simp [hx])]
      exact ih

/-- `get_session` after `end_session` sees the updated row. -/
theorem get_session_end_session (st : Store) (sid : String)
    (r : TerminationReason) (p : Option String) (n : Nat) :
    get_session (end_session st sid r p n) sid =
      (get_session st sid).map (fun s =>
        { s with status := statusForReason r, terminationReason := some r,
                 prUrl := p, endedAt := some n }) := by
  unfold get_session end_session
  exact find_map_ifId st.sessions sid _ (fun s => rfl)

/-- A concrete one-session store used by several counterexamples. -/
def sampleSessionRow : SessionRow :=
  { id := "s1", name := "exp", branch := "revis/exp", baseSha := "c0",
    status := "running", startedAt := 5 }

/-- C1 (counterexample): a session ended with reason retry-exhaustion
is stored with status `"stopped"`, not `"failed"` — `end_session` maps
only target-achieved to `completed` and error to `failed`, everything
else to `stopped`. -/
theorem end_session_retry_exhaustion_not_failed :
    ((get_session
        (end_session { sessions := [sampleSessionRow] } "s1"
          TerminationReason.retry_exhaustion none 9) "s1").map
      (fun s => s.status)) = some "stopped" ∧ ("stopped" : String) ≠ "failed" := by
  constructor
  · rfl
  · decide

/-- C1 (amended): for every session terminated with reason
retry-exhaustion, the session record stored by `end_session` has
status = `"stopped"` (together with the reason and end time). -/
theorem end_session_retry_exhaustion_stopped (st : Store) (sid : String)
    (p : Option String) (n : Nat) (s : SessionRow)
    (h : get_session st sid = some s) :
    get_session (end_session st sid TerminationReason.retry_exhaustion p n) sid =
      some { s with
               status := "stopped",
               terminationReason := some TerminationReason.retry_exhaustion,
               prUrl := p, endedAt := some n } := by
  rw [get_session_end_session, h]
  rfl

/-- C1 witness: the amended theorem applied to a concrete store. -/
theorem end_session_retry_exhaustion_stopped_witness :
    get_session { sessions := [sampleSessionRow] } "s1" = some sampleSessionRow ∧
    get_session
        (end_session { sessions := [sampleSessionRow] } "s1"
          TerminationReason.retry_exhaustion none 9) "s1" =
      some { sampleSessionRow with
               status := "stopped",
               terminationReason := some TerminationReason.retry_exhaustion,
               prUrl := none, endedAt := some 9 } :=
  ⟨rfl, end_session_retry_exhaustion_stopped _ "s1" none 9 sampleSessionRow rfl⟩

/-- A concrete fully-populated store: one stopped session with one run
and one row in every child table, including a suggestion that
references the session directly. -/
def populatedStore : Store :=
  { sessions := [({ sampleSessionRow with status := "stopped" } : SessionRow)]
    runs := [{ id := "r1", sessionId := "s1", iterationNumber := 1 }]
    metrics := [{ runId := "r1", name := "loss", value := 1/2 }]
    artifacts := [{ id := "a1", runId := "r1", kind := "plot", path := "p.png" }]
    decisions := [{ id := "d1", runId := "r1", actionType := "config",
                    rationale := "lower lr" }]
    params := [{ runId := "r1", key := "lr", value := "0.1" }]
    traces := [{ id := "t1", runId := "r1", eventType := "tool_call" }]
    suggestions := [{ id := 1, sessionId := "s1", runId := some "r1",
                      suggestionType := "code", content := "change model" }] }

/-- C2: `delete_session` removes the session, its runs and the
run-scoped child rows, but the `suggestions` table is never touched, so
a suggestion row referencing the deleted session survives the cascade
— contradicting the claim (and the store protocol's own docstring
"Delete a session and all related data"). -/
theorem delete_session_leaves_suggestion_rows :
    (delete_session populatedStore "s1" false).2 = Except.ok true ∧
    (delete_session populatedStore "s1" false).1.sessions = [] ∧
    (delete_session populatedStore "s1" false).1.runs = [] ∧
    (delete_session populatedStore "s1" false).1.metrics = [] ∧
    (delete_session populatedStore "s1" false).1.artifacts = [] ∧
    (delete_session populatedStore "s1" false).1.decisions = [] ∧
    (delete_session populatedStore "s1" false).1.params = [] ∧
    (delete_session populatedStore "s1" false).1.traces = [] ∧
    (delete_session populatedStore "s1" false).1.suggestions =
      [{ id := 1, sessionId := "s1", runId := some "r1",
         suggestionType := "code", content := "change model" }] := by
  refine ⟨rfl, rfl, rfl, rfl, rfl, rfl, rfl, rfl, rfl⟩

/-- C8: deleting a running session without `force` raises the
precondition error, and the call returns the database state unchanged —
the raise happens before any `DELETE` statement, so the session and all
its child records remain. -/
theorem delete_session_running_unforced_fails (st : Store) (sid : String)
    (s : SessionRow) (h : get_session st sid = some s)
    (hrun : s.status = "running") :
    delete_session st sid false =
      (st, Except.error "Cannot delete running session (use --force)") := by
  unfold delete_session
  rw [h]
  simp [hrun]

/-- C8 witness: the theorem applied to a concrete store holding a
running session with child rows. -/
theorem delete_session_running_unforced_fails_witness :
    get_session { populatedStore with sessions := [sampleSessionRow] } "s1" =
      some sampleSessionRow ∧
    sampleSessionRow.status = "running" ∧
    delete_session { populatedStore with sessions := [sampleSessionRow] } "s1"
        false =
      ({ populatedStore with sessions := [sampleSessionRow] },
        Except.error "Cannot delete running session (use --force)") :=
  ⟨rfl, rfl,
    delete_session_running_unforced_fails _ "s1" sampleSessionRow rfl rfl⟩

/-- C6: whenever `get_running_session` returns a (necessarily
status-running) session, the `revis loop` command refuses before ever
reaching `create_session`: the store is unchanged and the command
errors. -/
theorem loop_refuses_while_session_running (st : Store) (name : String)
    (sessionId baseSha budgetType : String) (budgetValue : Nat)
    (baselineRunId : Option String) (pid startedAt : Nat) (s₁ : SessionRow)
    (h : get_running_session st = some s₁) (_hrun : s₁.status = "running") :
    (cliLoop st name sessionId baseSha budgetType budgetValue baselineRunId
        pid startedAt).1 = st ∧
    ∃ msg, (cliLoop st name sessionId baseSha budgetType budgetValue
        baselineRunId pid startedAt).2 = Except.error msg := by
  unfold cliLoop
  by_cases hv : validSessionName name
  · by_cases hn : session_name_exists st name
    · simp [hv, hn]
    · simp [hv, hn, h]
  · simp [hv]

/-- C6 witness: the theorem applied to a concrete store with one
running session. -/
theorem loop_refuses_while_session_running_witness :
    get_running_session { sessions := [sampleSessionRow] } =
      some sampleSessionRow ∧
    sampleSessionRow.status = "running" ∧
    ((cliLoop { sessions := [sampleSessionRow] } "other" "s2" "c1" "runs" 10
        none 42 7).1 = { sessions := [sampleSessionRow] } ∧
      ∃ msg, (cliLoop { sessions := [sampleSessionRow] } "other" "s2" "c1"
          "runs" 10 none 42 7).2 = Except.error msg) :=
  ⟨rfl, rfl,
    loop_refuses_while_session_running _ "other" "s2" "c1" "runs" 10 none 42 7
      sampleSessionRow rfl rfl⟩

/-- Time-budget runs that end in budget-exhaustion stored a used value
that reached the loop's budget value; the ledger's `budgetValue` column
is never written by the loop. -/
theorem runTimeBudgetLoop_exhausted (V : Nat) (sched : List Nat) :
    ∀ led : BudgetLedger, led.terminated = none →
      (runTimeBudgetLoop V led sched).terminated =
        some TerminationReason.budget_exhausted →
      led.budgetValue = (runTimeBudgetLoop V led sched).budgetValue ∧
        V ≤ (runTimeBudgetLoop V led sched).budgetUsed := by
  induction sched with
  | nil =>
    intro led h0 hterm
    rw [runTimeBudgetLoop] at hterm
    rw [h0] at hterm
    simp at hterm
  | cons e rest ih =>
    intro led h0 hterm
    rw [runTimeBudgetLoop] at hterm ⊢
    unfold timeBudgetCheck at hterm ⊢
    by_cases he : e ≥ V
    · simp [he] at hterm ⊢
    · simp [he] at hterm ⊢
      exact ih _ (by simp [h0]) hterm

/-- Run-budget runs that end in budget-exhaustion did so with the
iteration counter at or above the loop's budget value. -/
theorem runRunsBudgetLoop_exhausted (V : Nat) (outs : List Bool) :
    ∀ led : BudgetLedger, led.terminated = none →
      (runRunsBudgetLoop V led outs).terminated =
        some TerminationReason.budget_exhausted →
      led.budgetValue = (runRunsBudgetLoop V led outs).budgetValue ∧
        V ≤ (runRunsBudgetLoop V led outs).iterationCount := by
  induction outs with
  | nil =>
    intro led h0 hterm
    rw [runRunsBudgetLoop] at hterm
    rw [h0] at hterm
    simp at hterm
  | cons success rest ih =>
    intro led h0 hterm
    rw [runRunsBudgetLoop] at hterm ⊢
    by_cases hit : led.iterationCount ≥ V
    · simp [hit] at hterm ⊢
    · cases success with
      | true =>
        simp [hit] at hterm ⊢
        exact ih _ (by simp [h0]) hterm
      | false =>
        simp [hit] at hterm ⊢
        exact ih _ (by simp [h0]) hterm

/-- C7 (counterexample): resumed sessions break both halves of the
claim.  Time budget 100 with 60 already used resumes with remaining
value 40; a check at 40 elapsed seconds terminates with
budget-exhausted, but the stored used value 40 is below the budget
value 100.  Run budget 10 with 6 iterations done resumes with
remaining value 4; the very first check terminates with
budget-exhausted at iteration count 6 < 10. -/
theorem resumed_budget_exhaustion_below_value :
    ((runTimeBudgetLoop
        (resumeBudgetValue { budgetValue := 100, budgetUsed := 60 })
        { budgetValue := 100, budgetUsed := 60 } [40]).terminated =
          some TerminationReason.budget_exhausted ∧
      (runTimeBudgetLoop
        (resumeBudgetValue { budgetValue := 100, budgetUsed := 60 })
        { budgetValue := 100, budgetUsed := 60 } [40]).budgetUsed <
      (runTimeBudgetLoop
        (resumeBudgetValue { budgetValue := 100, budgetUsed := 60 })
        { budgetValue := 100, budgetUsed := 60 } [40]).budgetValue) ∧
    ((runRunsBudgetLoop
        (resumeBudgetValue { budgetValue := 10, budgetUsed := 6, iterationCount := 6 })
        { budgetValue := 10, budgetUsed := 6, iterationCount := 6 } [true]).terminated =
          some TerminationReason.budget_exhausted ∧
      (runRunsBudgetLoop
        (resumeBudgetValue { budgetValue := 10, budgetUsed := 6, iterationCount := 6 })
        { budgetValue := 10, budgetUsed := 6, iterationCount := 6 } [true]).iterationCount <
      (runRunsBudgetLoop
        (resumeBudgetValue { budgetValue := 10, budgetUsed := 6, iterationCount := 6 })
        { budgetValue := 10, budgetUsed := 6, iterationCount := 6 } [true]).budgetValue) := by
  decide

/-- C7 (amended): for freshly started sessions — where `_run_loop`
receives the session's own budget value — termination with
budget-exhausted guarantees `used ≥ value` for time budgets and
`iteration_count ≥ value` for run budgets.  (For resumed sessions the
loop only enforces the remaining budget and the stored used value
counts from the resume, so the bound fails there.) -/
theorem fresh_budget_exhaustion_meets_value :
    (∀ (sched : List Nat) (led : BudgetLedger), led.terminated = none →
      (runTimeBudgetLoop led.budgetValue led sched).terminated =
        some TerminationReason.budget_exhausted →
      (runTimeBudgetLoop led.budgetValue led sched).budgetValue ≤
        (runTimeBudgetLoop led.budgetValue led sched).budgetUsed) ∧
    (∀ (outs : List Bool) (led : BudgetLedger), led.terminated = none →
      (runRunsBudgetLoop led.budgetValue led outs).terminated =
        some TerminationReason.budget_exhausted →
      (runRunsBudgetLoop led.budgetValue led outs).budgetValue ≤
        (runRunsBudgetLoop led.budgetValue led outs).iterationCount) := by
  constructor
  · intro sched led h0 hterm
    obtain ⟨hval, hused⟩ := runTimeBudgetLoop_exhausted led.budgetValue sched led h0 hterm
    rw [← hval]
    exact hused
  · intro outs led h0 hterm
    obtain ⟨hval, hiter⟩ := runRunsBudgetLoop_exhausted led.budgetValue outs led h0 hterm
    rw [← hval]
    exact hiter

/-- C7 witness: the amended theorem applied to concrete fresh sessions
(time budget 5 exhausted at 5 elapsed seconds; run budget 2 exhausted
after two successful iterations). -/
theorem fresh_budget_exhaustion_meets_value_witness :
    (({ budgetValue := 5 } : BudgetLedger).terminated = none ∧
      (runTimeBudgetLoop ({ budgetValue := 5 } : BudgetLedger).budgetValue
        { budgetValue := 5 } [5]).terminated =
          some TerminationReason.budget_exhausted ∧
      (runTimeBudgetLoop ({ budgetValue := 5 } : BudgetLedger).budgetValue
        { budgetValue := 5 } [5]).budgetValue ≤
        (runTimeBudgetLoop ({ budgetValue := 5 } : BudgetLedger).budgetValue
          { budgetValue := 5 } [5]).budgetUsed) ∧
    (({ budgetValue := 2 } : BudgetLedger).terminated = none ∧
      (runRunsBudgetLoop ({ budgetValue := 2 } : BudgetLedger).budgetValue
        { budgetValue := 2 } [true, true, true]).terminated =
          some TerminationReason.budget_exhausted ∧
      (runRunsBudgetLoop ({ budgetValue := 2 } : BudgetLedger).budgetValue
        { budgetValue := 2 } [true, true, true]).budgetValue ≤
        (runRunsBudgetLoop ({ budgetValue := 2 } : BudgetLedger).budgetValue
          { budgetValue := 2 } [true, true, true]).iterationCount) :=
  ⟨⟨rfl, by decide,
    fresh_budget_exhaustion_meets_value.1 [5] { budgetValue := 5 } rfl (by decide)⟩,
   ⟨rfl, by decide,
    fresh_budget_exhaustion_meets_value.2 [true, true, true] { budgetValue := 2 }
      rfl (by decide)⟩⟩

/-- A nonempty list's `min?` is the Python-style fold. -/
theorem min?_of_ne_nil {l : List ℚ} (h : l ≠ []) :
    l.min? = some (pyListMin l) := by
  cases l with
  | nil => exact absurd rfl h
  | cons x xs => rfl

/-- A nonempty list's `max?` is the Python-style fold. -/
theorem max?_of_ne_nil {l : List ℚ} (h : l ≠ []) :
    l.max? = some (pyListMax l) := by
  cases l with
  | nil => exact absurd rfl h
  | cons x xs => rfl

/-- `min?` determines the Python fold value. -/
theorem pyListMin_of_min? {l : List ℚ} {q : ℚ} (h : l.min? = some q) :
    pyListMin l = q := by
  cases l with
  | nil => simp [List.min?] at h
  | cons x xs =>
    have : (x :: xs).min? = some (xs.foldl min x) := rfl
    rw [this] at h
    exact (Option.some.inj h)

/-- `max?` determines the Python fold value. -/
theorem pyListMax_of_max? {l : List ℚ} {q : ℚ} (h : l.max? = some q) :
    pyListMax l = q := by
  cases l with
  | nil => simp [List.max?] at h
  | cons x xs =>
    have : (x :: xs).max? = some (xs.foldl max x) := rfl
    rw [this] at h
    exact (Option.some.inj h)

/-- The code's improvement quantity equals the specification-side
formula built from `List.min?`/`List.max?` values. -/
theorem plateauImprovement_eq (h : List ℚ) (n : Nat) (m : Bool)
    (bb br : ℚ)
    (hbb : (if m then (h.take (h.length - n)).min?
            else (h.take (h.length - n)).max?) = some bb)
    (hbr : (if m then (h.drop (h.length - n)).min?
            else (h.drop (h.length - n)).max?) = some br) :
    plateauImprovement h n m =
      (if bb = 0 then 0 else (if m then bb - br else br - bb) / |bb|) := by
  cases m with
  | true =>
    simp only [if_true] at hbb hbr
    have e1 := pyListMin_of_min? hbb
    have e2 := pyListMin_of_min? hbr
    unfold plateauImprovement
    rw [e1, e2]
    by_cases hz : bb = 0
    · simp [hz]
    · simp [hz]
  | false =>
    simp only [Bool.false_eq_true, if_false] at hbb hbr
    have e1 := pyListMax_of_max? hbb
    have e2 := pyListMax_of_max? hbr
    unfold plateauImprovement
    rw [e1, e2]
    by_cases hz : bb = 0
    · simp [hz]
    · simp [hz]

/-- C5: `detect_plateau` triggers exactly when the history is longer
than the window and the best of the last `n` entries improves on the
best of the prior prefix by less than the threshold fraction (relative
improvement taken as 0 when the prior best is 0); any triggering result
carries severity warning, and with history length `≤ n` it never
triggers (the length conjunct of the iff fails). -/
theorem detect_plateau_characterization (h : List ℚ) (t : ℚ) (n : Nat)
    (m : Bool) (hn : 1 ≤ n) :
    ((detect_plateau h t n m).triggered = true ↔
      (n < h.length ∧ ∃ bb br : ℚ,
        (if m then (h.take (h.length - n)).min?
         else (h.take (h.length - n)).max?) = some bb ∧
        (if m then (h.drop (h.length - n)).min?
         else (h.drop (h.length - n)).max?) = some br ∧
        (if bb = 0 then 0 else (if m then bb - br else br - bb) / |bb|) < t)) ∧
    (detect_plateau h t n m).severity = "warning" := by
  constructor
  · by_cases hle : h.length ≤ n
    · rw [detect_plateau, if_pos hle]
      have hnot : ¬ n < h.length := by omega
      simp [hnot]
    · rw [detect_plateau, if_neg hle]
      have hlt : n < h.length := by omega
      have hpre : h.take (h.length - n) ≠ [] := by
        apply List.ne_nil_of_length_pos
        rw [List.length_take]
        omega
      have hrec : h.drop (h.length - n) ≠ [] := by
        apply List.ne_nil_of_length_pos
        rw [List.length_drop]
        omega
      by_cases himp : plateauImprovement h n m < t
      · rw [if_pos himp]
        refine iff_of_true rfl ⟨hlt, ?_⟩
        cases m with
        | true =>
          refine ⟨pyListMin (h.take (h.length - n)),
                  pyListMin (h.drop (h.length - n)), ?_, ?_, ?_⟩
          · simp [min?_of_ne_nil hpre]
          · simp [min?_of_ne_nil hrec]
          · rw [← plateauImprovement_eq h n true _ _
              (by simp [min?_of_ne_nil hpre]) (by simp [min?_of_ne_nil hrec])]
            exact himp
        | false =>
          refine ⟨pyListMax (h.take (h.length - n)),
                  pyListMax (h.drop (h.length - n)), ?_, ?_, ?_⟩
          · simp [max?_of_ne_nil hpre]
          · simp [max?_of_ne_nil hrec]
          · rw [← plateauImprovement_eq h n false _ _
              (by simp [max?_of_ne_nil hpre]) (by simp [max?_of_ne_nil hrec])]
            exact himp
      · rw [if_neg himp]
        apply iff_of_false
        · simp
        · rintro ⟨-, bb, br, hbb, hbr, hcond⟩
          rw [← plateauImprovement_eq h n m bb br hbb hbr] at hcond
          exact himp hcond
  · rw [detect_plateau]
    split
    · rfl
    · split
      · rfl
      · rfl

/-- C5 witness: the characterization applied to the concrete history
`[1, 1]` with window 1, threshold 1/100, minimizing — the recent best 1
shows zero improvement over the prior best 1, so the detector triggers
with severity warning. -/
theorem detect_plateau_characterization_witness :
    1 ≤ 1 ∧
    (((detect_plateau [1, 1] (1/100) 1 true).triggered = true ↔
      (1 < ([1, 1] : List ℚ).length ∧ ∃ bb br : ℚ,
        (if true then (([1, 1] : List ℚ).take (([1, 1] : List ℚ).length - 1)).min?
         else (([1, 1] : List ℚ).take (([1, 1] : List ℚ).length - 1)).max?) = some bb ∧
        (if true then (([1, 1] : List ℚ).drop (([1, 1] : List ℚ).length - 1)).min?
         else (([1, 1] : List ℚ).drop (([1, 1] : List ℚ).length - 1)).max?) = some br ∧
        (if bb = 0 then 0 else (if true then bb - br else br - bb) / |bb|) < 1/100)) ∧
    (detect_plateau [1, 1] (1/100) 1 true).severity = "warning") :=
  ⟨le_refl 1, detect_plateau_characterization [1, 1] (1/100) 1 true (le_refl 1)⟩

/-- A repository tree with a deny-listed directory holding a file. -/
def secretsFS : FileSystem :=
  { entries := [("secrets", FSNode.dir),
                ("secrets/key.txt", FSNode.file ["hunter2"])] }

/-- C3 (counterexample): with deny pattern `secrets`, the path
`secrets` is denied, yet `tool_list_directory` invoked on it does not
return an access-denied message — it lists the directory's contents
(the child `secrets/key.txt` itself matches no deny pattern, so it is
even displayed). -/
theorem list_directory_denied_path_not_refused :
    is_denied ["secrets"] "secrets" = true ∧
    ToolExecutor.tool_list_directory secretsFS ["secrets"] "secrets" false =
      "key.txt" ∧
    ("key.txt" : String) ≠ "Access denied: secrets" := by
  refine ⟨by decide, by decide, by decide⟩

/-- C3 (amended): deny totality holds for the two refusing tools —
`read_file` and `modify_config` answer any deny-matching path with the
access-denied message and touch neither the filesystem nor the recorded
changes — while `list_directory` performs no file-system change and
filters deny-matching entries out of its listing, but does not itself
answer with an access-denied message. -/
theorem denied_paths_refused_or_filtered
    (fs fs2 : FileSystem) (cfs : ConfigStore) (deny : List String)
    (changes : List ConfigChange) (path path2 key value : String)
    (startLine endLine : Option Nat) (recursive : Bool)
    (h : is_denied deny path = true) :
    ToolExecutor.tool_read_file fs deny path startLine endLine =
      s!"Access denied: {path}" ∧
    ToolExecutor.tool_modify_config cfs deny changes path key value =
      (s!"Access denied: {path}", cfs, changes) ∧
    (∀ e ∈ ToolExecutor.tool_list_directory_entries fs2 deny path2 recursive,
      is_denied deny e.2 = false) := by
  refine ⟨?_, ?_, ?_⟩
  · simp [ToolExecutor.tool_read_file, h]
  · simp [ToolExecutor.tool_modify_config, h]
  · intro e he
    unfold ToolExecutor.tool_list_directory_entries at he
    split at he
    all_goals
      obtain ⟨a, ha, hfa⟩ := List.mem_filterMap.mp he
    all_goals
      by_cases hd : is_denied deny a.1 = true
    · rw [if_pos hd] at hfa; exact absurd hfa (by simp)
    · rw [if_neg hd] at hfa
      cases hfa
      simpa using hd
    · rw [if_pos hd] at hfa; exact absurd hfa (by simp)
    · rw [if_neg hd] at hfa
      cases hfa
      simpa using hd

/-- C3 witness: the amended theorem applied at the denied path `.env`
(deny pattern `*.env`) over concrete states. -/
theorem denied_paths_refused_or_filtered_witness :
    is_denied ["*.env"] ".env" = true ∧
    (ToolExecutor.tool_read_file secretsFS ["*.env"] ".env" none none =
      "Access denied: .env" ∧
    ToolExecutor.tool_modify_config { files := [] } ["*.env"] [] ".env"
        "lr" "0.1" =
      ("Access denied: .env", { files := [] }, []) ∧
    (∀ e ∈ ToolExecutor.tool_list_directory_entries secretsFS ["*.env"]
        "secrets" false, is_denied ["*.env"] e.2 = false)) :=
  ⟨by decide,
    denied_paths_refused_or_filtered secretsFS secretsFS { files := [] }
      ["*.env"] [] ".env" "secrets" "lr" "0.1" none none false (by decide)⟩

/-- C10: on a TOML file whose dotted key exists (and whose value string
coerces to the old value's type), `tool_modify_config` answers
"Writing TOML not supported" and leaves the config store unchanged, yet
the mutation is appended to `config_changes` first — so the
orchestrator's `has_config_changes` test subsequently observes a config
change although no file was written. -/
theorem modify_config_toml_phantom_change
    (cfs : ConfigStore) (deny : List String) (changes : List ConfigChange)
    (path key value : String) (data old nv : ConfigValue)
    (hdeny : is_denied deny path = false)
    (hlook : cfs.lookup path = some data)
    (hsfx : suffixLower path = ".toml")
    (hkey : getAtPath data (splitOnChar '.' key) = Except.ok old)
    (hval : parse_value value (cfgTypeOf old) = some nv) :
    ToolExecutor.tool_modify_config cfs deny changes path key value =
      ("Writing TOML not supported", cfs,
        changes ++ [{ path := path, key := key,
                      oldValue := old, newValue := nv }]) ∧
    has_config_changes
      (changes ++ [{ path := path, key := key,
                     oldValue := old, newValue := nv }]) = true := by
  constructor
  · unfold ToolExecutor.tool_modify_config
    rw [hdeny]
    simp only [Bool.false_eq_true, if_false, hlook, hsfx, hkey, hval]
    norm_num
    rintro ((h | h) | h) <;> exact absurd h (by decide)
  · simp [has_config_changes]

/-- A concrete TOML config store for the C10 witness. -/
def tomlStore : ConfigStore :=
  { files := [("conf/train.toml",
      ConfigValue.dict [("train", ConfigValue.dict
        [("batch", ConfigValue.int 8)])])] }

/-- C10 witness: the theorem applied to a concrete TOML file with an
existing integer key. -/
theorem modify_config_toml_phantom_change_witness :
    (is_denied [] "conf/train.toml" = false ∧
      tomlStore.lookup "conf/train.toml" =
        some (ConfigValue.dict [("train", ConfigValue.dict
          [("batch", ConfigValue.int 8)])]) ∧
      suffixLower "conf/train.toml" = ".toml" ∧
      getAtPath (ConfigValue.dict [("train", ConfigValue.dict
          [("batch", ConfigValue.int 8)])]) (splitOnChar '.' "train.batch") =
        Except.ok (ConfigValue.int 8) ∧
      parse_value "4" (cfgTypeOf (ConfigValue.int 8)) =
        some (ConfigValue.int 4)) ∧
    (ToolExecutor.tool_modify_config tomlStore [] [] "conf/train.toml"
        "train.batch" "4" =
      ("Writing TOML not supported", tomlStore,
        [{ path := "conf/train.toml", key := "train.batch",
           oldValue := ConfigValue.int 8, newValue := ConfigValue.int 4 }]) ∧
      has_config_changes
        [{ path := "conf/train.toml", key := "train.batch",
           oldValue := ConfigValue.int 8, newValue := ConfigValue.int 4 }] =
        true) :=
  ⟨⟨by decide, rfl, by decide, rfl, rfl⟩,
    modify_config_toml_phantom_change tomlStore [] [] "conf/train.toml"
      "train.batch" "4" _ (ConfigValue.int 8) (ConfigValue.int 4)
      (by decide) rfl (by decide) rfl rfl⟩

/-- C4 (counterexample): the result-file collector performs no key
filtering at all — a key beginning with an underscore (here `_step`,
which is also denylisted metadata under the claim's reading) comes back
in the returned mapping. -/
theorem eval_json_collector_keeps_underscore_keys :
    EvalJsonCollector.get_metrics
        (some (Json.obj [("metrics",
          Json.obj [("_step", Json.num 1), ("loss", Json.num (1/2))])])) =
      some [("_step", (1 : ℚ)), ("loss", (1/2 : ℚ))] ∧
    strStartsWith "_step" "_" = true := by
  exact ⟨rfl, by decide⟩

/-- C4 (amended): the external-tracker collector does skip keys
beginning with an underscore, but the result-file collector applies no
key filtering (every numeric entry of the `"metrics"` mapping is kept,
underscore or not), and neither collector implements the
non-optimizable-metadata denylist. -/
theorem collector_key_filtering :
    (∀ (run : Option WandbRun) (ms : List (String × ℚ)),
      WandbCollector.get_metrics_from_log run = some ms →
      ∀ e ∈ ms, strStartsWith e.1 "_" = false) ∧
    (∀ kvs : List (String × Json),
      EvalJsonCollector.get_metrics (some (Json.obj [("metrics", Json.obj kvs)])) =
        some (kvs.filterMap (fun e =>
          (jsonAsNumber e.2).map (fun q => (e.1, q))))) := by
  constructor
  · rintro run ms hms e he
    cases run with
    | none => simp [WandbCollector.get_metrics_from_log] at hms
    | some r =>
      simp only [WandbCollector.get_metrics_from_log] at hms
      by_cases hstate : (r.state == "finished" || r.state == "crashed") = true
      · simp only [hstate, Bool.not_true, Bool.false_eq_true, if_false,
          Option.some.injEq] at hms
        subst hms
        obtain ⟨a, ha, hfa⟩ := List.mem_filterMap.mp he
        by_cases hu : strStartsWith a.1 "_" = true
        · simp only [hu, Bool.not_true, Bool.false_eq_true, if_false] at hfa
          exact absurd hfa (by simp)
        · simp only [Bool.not_eq_true] at hu
          simp only [hu, Bool.not_false, if_true] at hfa
          obtain ⟨q, hq, he2⟩ := Option.map_eq_some'.mp hfa
          cases he2
          exact hu
      · simp only [Bool.not_eq_true] at hstate
        simp only [hstate, Bool.not_false, if_true] at hms
        exact absurd hms (by simp)
  · intro kvs
    rfl

/-- C4 witness: the amended theorem's tracker half applied to a
concrete finished run. -/
theorem collector_key_filtering_witness :
    WandbCollector.get_metrics_from_log
        (some { state := "finished", summary := [("loss", Json.num 1)] }) =
      some [("loss", (1 : ℚ))] ∧
    strStartsWith ("loss", (1 : ℚ)).1 "_" = false :=
  ⟨rfl,
    collector_key_filtering.1
      (some { state := "finished", summary := [("loss", Json.num 1)] })
      [("loss", (1 : ℚ))] rfl ("loss", (1 : ℚ)) (by simp)⟩

/-- A host with no files and a live pane for the training session. -/
def paneOnlyHost : ExecHostState :=
  { files := [], panes := [("revis-abc", "epoch 1 loss 0.5")] }

/-- C9 (counterexample): the local executor's `get_log_tail` returns
the empty string when the file does not exist — it never consults the
multiplexed session even though that session's screen holds content
(compare `get_tmux_output`). -/
theorem local_get_log_tail_no_fallback :
    LocalExecutor.get_log_tail paneOnlyHost ".revis/runs/r1/train.log" 200 =
      "" ∧
    LocalExecutor.get_tmux_output paneOnlyHost "revis-abc" =
      "epoch 1 loss 0.5" ∧
    ("" : String) ≠ "epoch 1 loss 0.5" := by
  exact ⟨rfl, rfl, by decide⟩

/-- C9 (amended): both backends return the last N lines of an existing
file; on a missing file the remote backend falls back to capturing the
screen of the tmux session literally named `revis`, while the local
backend returns the empty string with no fallback. -/
theorem get_log_tail_contract :
    (∀ (st : ExecHostState) (p : String) (n : Nat) (c : List String),
      st.readLines p = some c →
      LocalExecutor.get_log_tail st p n = strIntercalate "\n" (tailLines n c)) ∧
    (∀ (st : ExecHostState) (p : String) (n : Nat),
      st.readLines p = none → LocalExecutor.get_log_tail st p n = "") ∧
    (∀ (st : ExecHostState) (p : String) (n : Nat) (c : List String),
      st.readLines p = some c →
      SSHExecutor.get_log_tail st p n = strIntercalate "\n" (tailLines n c)) ∧
    (∀ (st : ExecHostState) (p : String) (n : Nat) (pane : String),
      st.readLines p = none →
      (st.panes.find? (fun e => e.1 == "revis")).map (fun e => e.2) =
        some pane →
      SSHExecutor.get_log_tail st p n = pane) := by
  refine ⟨?_, ?_, ?_, ?_⟩
  · intro st p n c h
    simp [LocalExecutor.get_log_tail, h]
  · intro st p n h
    simp [LocalExecutor.get_log_tail, h]
  · intro st p n c h
    simp [SSHExecutor.get_log_tail, h]
  · intro st p n pane h hpane
    simp [SSHExecutor.get_log_tail, h, hpane]

/-- C9 witness: the contract applied to a host with a three-line log
file, and to a file-less host with a live `revis` pane. -/
theorem get_log_tail_contract_witness :
    (({ files := [("logs/t.log", ["a", "b", "c"])], panes := [] }
        : ExecHostState).readLines "logs/t.log" = some ["a", "b", "c"] ∧
      LocalExecutor.get_log_tail
          { files := [("logs/t.log", ["a", "b", "c"])], panes := [] }
          "logs/t.log" 2 =
        strIntercalate "\n" (tailLines 2 ["a", "b", "c"])) ∧
    (({ files := [], panes := [("revis", "screen")] }
        : ExecHostState).readLines "t.log" = none ∧
      SSHExecutor.get_log_tail
          { files := [], panes := [("revis", "screen")] } "t.log" 5 =
        "screen") :=
  ⟨⟨rfl,
    get_log_tail_contract.1
      { files := [("logs/t.log", ["a", "b", "c"])], panes := [] }
      "logs/t.log" 2 ["a", "b", "c"] rfl⟩,
   ⟨rfl,
    get_log_tail_contract.2.2.2
      { files := [], panes := [("revis", "screen")] } "t.log" 5 "screen"
      rfl rfl⟩⟩

end Revis
